import Mathlib

/-!
Shallow embedding of the `globe` repository (geographic/Cartesian coordinate
conversion library) over the real numbers.

`Float` in the source is `f64`; we model it as `ℝ`, transcendental operations
(`sin`, `asin`, `atan`, `sqrt`, `acos`) as their Mathlib `Real` counterparts,
and `Float::rem_euclid` as the Euclidean remainder `remEuclid` below.

Sources embedded:
- `src/src/geographic.rs`: `Longitude`, `Latitude`, `Altitude`,
  `Coordinates` (geographic), their `From` conversions and `distance`.
- `src/src/projection/equirectangular.rs`: `Equirectangular` with
  `forward`/`reverse`.

The crate modules `float.rs` (`PositiveFloat`, constants) and `cartesian.rs`
(`cartesian::Coordinates`) are not among the provided sources; they are
modelled from the spec where indicated.
-/

noncomputable section

/-- The constant `PI` of the crate module `float`: `π`. -/
abbrev PI : ℝ := Real.pi

/-- The constant `TAU` of the crate module `float`: `2π`. -/
abbrev TAU : ℝ := 2 * Real.pi

/-- The constant `FRAC_PI_2` of the crate module `float`: `π/2`. -/
abbrev FRAC_PI_2 : ℝ := Real.pi / 2

/-- The Rust method `Float::rem_euclid` over the reals: for `b > 0` this is the
always-nonnegative remainder `a - b * ⌊a / b⌋ ∈ [0, b)`. -/
def remEuclid (a b : ℝ) : ℝ := a - b * ⌊a / b⌋

/-- Modelled from the spec: `PositiveFloat` (module `float.rs`, absent from
the provided sources) wraps a non-negative float; construction from a float
takes the absolute value. -/
@[ext]
structure PositiveFloat where
  val : ℝ

/-- Modelled from the spec: `PositiveFloat::from(Float)` takes the absolute
value of the input. -/
def PositiveFloat.ofFloat (value : ℝ) : PositiveFloat := ⟨|value|⟩

/-- The accessor `PositiveFloat::as_float`. -/
def PositiveFloat.as_float (self : PositiveFloat) : ℝ := self.val

namespace Cartesian

/-- Modelled from the spec: `cartesian::Coordinates` (module `cartesian.rs`,
absent from the provided sources) is a plain triple `(x, y, z)` of floats
with default `(0, 0, 0)`. -/
@[ext]
structure Coordinates where
  x : ℝ
  y : ℝ
  z : ℝ

/-- The derived `Default` of `cartesian::Coordinates`: the origin. -/
def Coordinates.default : Coordinates := ⟨0, 0, 0⟩

end Cartesian

/-- The type `geographic::Longitude`: wrapper around a float (`src/src/geographic.rs`,
line 30). -/
@[ext]
structure Longitude where
  val : ℝ

/-- The conversion `impl From<Float> for Longitude` (`src/src/geographic.rs`, lines 32-46):
keep the value if it lies in `[-π, π)`, otherwise wrap it with
`(value + PI).rem_euclid(TAU) - PI`. -/
def Longitude.ofFloat (value : ℝ) : Longitude :=
  ⟨if -PI ≤ value ∧ value < PI then value
   else remEuclid (value + PI) TAU - PI⟩

/-- The conversion `impl From<cartesian::Coordinates> for Longitude`
(`src/src/geographic.rs`, lines 48-63): the planar angle of `(x, y)` by case
analysis, then normalized through `Longitude::from(Float)`. -/
def Longitude.ofCartesian (point : Cartesian.Coordinates) : Longitude :=
  Longitude.ofFloat
    (if 0 < point.x then Real.arctan (point.y / point.x)
     else if point.x < 0 ∧ 0 ≤ point.y then Real.arctan (point.y / point.x) + PI
     else if point.x < 0 ∧ point.y < 0 then Real.arctan (point.y / point.x) - PI
     else if point.x = 0 ∧ 0 < point.y then FRAC_PI_2
     else if point.x = 0 ∧ point.y < 0 then -FRAC_PI_2
     else if point.x = 0 ∧ point.y = 0 then 0
     else 0)

/-- The accessor `Longitude::as_float` (`src/src/geographic.rs`, lines 66-69). -/
def Longitude.as_float (self : Longitude) : ℝ := self.val

/-- The type `geographic::Latitude`: wrapper around a float (`src/src/geographic.rs`,
line 100). -/
@[ext]
structure Latitude where
  val : ℝ

/-- The conversion `impl From<Float> for Latitude` (`src/src/geographic.rs`, lines 102-110):
keep the value if it lies in `[-π/2, π/2]`, otherwise apply
`value.sin().asin()`. -/
def Latitude.ofFloat (value : ℝ) : Latitude :=
  ⟨if -FRAC_PI_2 ≤ value ∧ value ≤ FRAC_PI_2 then value
   else Real.arcsin (Real.sin value)⟩

/-- The conversion `impl From<cartesian::Coordinates> for Latitude`
(`src/src/geographic.rs`, lines 112-125): the polar angle `θ` by case
analysis on `z`, then `π/2 - θ` normalized through `Latitude::from(Float)`. -/
def Latitude.ofCartesian (point : Cartesian.Coordinates) : Latitude :=
  Latitude.ofFloat
    (FRAC_PI_2 -
      (if 0 < point.z then
        Real.arctan (Real.sqrt (point.x ^ 2 + point.y ^ 2) / point.z)
       else if point.z < 0 then
        PI + Real.arctan (Real.sqrt (point.x ^ 2 + point.y ^ 2) / point.z)
       else if point.z = 0 ∧ point.x * point.y ≠ 0 then FRAC_PI_2
       else FRAC_PI_2))

/-- The accessor `Latitude::as_float` (`src/src/geographic.rs`, lines 127-132). -/
def Latitude.as_float (self : Latitude) : ℝ := self.val

/-- The type `geographic::Altitude`: wrapper around a `PositiveFloat`
(`src/src/geographic.rs`, line 151). -/
@[ext]
structure Altitude where
  val : PositiveFloat

/-- The conversion `impl From<Float> for Altitude` (`src/src/geographic.rs`, lines 153-157):
delegates to `PositiveFloat::from`. -/
def Altitude.ofFloat (value : ℝ) : Altitude := ⟨PositiveFloat.ofFloat value⟩

/-- The conversion `impl From<cartesian::Coordinates> for Altitude`
(`src/src/geographic.rs`, lines 159-166): the Euclidean norm
`sqrt(x² + y² + z²)`. -/
def Altitude.ofCartesian (coords : Cartesian.Coordinates) : Altitude :=
  Altitude.ofFloat (Real.sqrt (coords.x ^ 2 + coords.y ^ 2 + coords.z ^ 2))

/-- The accessor `Altitude::as_float` (`src/src/geographic.rs`, lines 168-173). -/
def Altitude.as_float (self : Altitude) : ℝ := self.val.as_float

/-- The derived `Default` of `Altitude`: zero. -/
def Altitude.default : Altitude := ⟨⟨0⟩⟩

namespace Geographic

/-- The type `geographic::Coordinates` (`src/src/geographic.rs`, lines 178-182). -/
@[ext]
structure Coordinates where
  longitude : Longitude
  latitude : Latitude
  altitude : Altitude

/-- The derived `Default` of `geographic::Coordinates`: longitude 0,
latitude 0, altitude 0. -/
def Coordinates.default : Coordinates := ⟨⟨0⟩, ⟨0⟩, Altitude.default⟩

/-- The conversion `impl From<cartesian::Coordinates> for Coordinates`
(`src/src/geographic.rs`, lines 184-191): each field derived independently
from the same Cartesian triple. -/
def Coordinates.ofCartesian (coords : Cartesian.Coordinates) : Coordinates :=
  ⟨Longitude.ofCartesian coords, Latitude.ofCartesian coords,
   Altitude.ofCartesian coords⟩

/-- The method `Coordinates::distance` (`src/src/geographic.rs`, lines 207-213): the
spherical law of cosines. -/
def Coordinates.distance (self rhs : Coordinates) : ℝ :=
  let prod_latitude_sin :=
    Real.sin self.latitude.as_float * Real.sin rhs.latitude.as_float
  let prod_latitude_cos :=
    Real.cos self.latitude.as_float * Real.cos rhs.latitude.as_float
  let longitude_diff := |self.longitude.as_float - rhs.longitude.as_float|
  Real.arccos (prod_latitude_sin + prod_latitude_cos * Real.cos longitude_diff)

end Geographic

/-- The type `projection::Equirectangular` (`src/src/projection/equirectangular.rs`,
lines 10-12): owns a `PositiveFloat` radius. -/
structure Equirectangular where
  radius : PositiveFloat

/-- The method `Equirectangular::forward` (`src/src/projection/equirectangular.rs`,
lines 15-21): `x = radius·longitude`, `y = radius·latitude`, `z` default. -/
def Equirectangular.forward (self : Equirectangular)
    (coordinates : Geographic.Coordinates) : Cartesian.Coordinates :=
  ⟨self.radius.as_float * coordinates.longitude.as_float,
   self.radius.as_float * coordinates.latitude.as_float,
   Cartesian.Coordinates.default.z⟩

/-- The method `Equirectangular::reverse` (`src/src/projection/equirectangular.rs`,
lines 23-29): `latitude = y/radius`, `longitude = x/radius` through the
`From<Float>` conversions, altitude default. -/
def Equirectangular.reverse (self : Equirectangular)
    (coordinates : Cartesian.Coordinates) : Geographic.Coordinates :=
  { latitude := Latitude.ofFloat (coordinates.y / self.radius.as_float)
    longitude := Longitude.ofFloat (coordinates.x / self.radius.as_float)
    altitude := Altitude.default }

/-! ## Helper lemmas about the Euclidean remainder -/

lemma remEuclid_nonneg (a b : ℝ) (hb : 0 < b) : 0 ≤ remEuclid a b := by
  unfold remEuclid
  have h1 : (⌊a / b⌋ : ℝ) ≤ a / b := Int.floor_le _
  have h2 : b * (⌊a / b⌋ : ℝ) ≤ b * (a / b) :=
    mul_le_mul_of_nonneg_left h1 hb.le
  rw [mul_div_cancel₀ a hb.ne'] at h2
  linarith

lemma remEuclid_lt (a b : ℝ) (hb : 0 < b) : remEuclid a b < b := by
  unfold remEuclid
  have h1 : a / b < (⌊a / b⌋ : ℝ) + 1 := Int.lt_floor_add_one _
  have h2 : b * (a / b) < b * ((⌊a / b⌋ : ℝ) + 1) :=
    (mul_lt_mul_left hb).mpr h1
  rw [mul_div_cancel₀ a hb.ne'] at h2
  nlinarith

lemma remEuclid_of_nonneg_of_lt (a b : ℝ) (h0 : 0 ≤ a) (hab : a < b) :
    remEuclid a b = a := by
  have hb : 0 < b := lt_of_le_of_lt h0 hab
  have hfloor : ⌊a / b⌋ = 0 := by
    rw [Int.floor_eq_zero_iff]
    constructor
    · exact div_nonneg h0 hb.le
    · rw [div_lt_one hb]
      exact hab
  unfold remEuclid
  rw [hfloor]
  simp

lemma remEuclid_add_right (a b : ℝ) (hb : b ≠ 0) :
    remEuclid (a + b) b = remEuclid a b := by
  unfold remEuclid
  have hdiv : (a + b) / b = a / b + 1 := by
    field_simp
  rw [hdiv, Int.floor_add_one]
  push_cast
  ring

/-- The stored value of `Longitude::from(Float)` always equals the wrap
formula `((value + π) mod 2π) − π`: on the in-range branch the remainder is
the identity. -/
lemma longitude_ofFloat_val_wrap (v : ℝ) :
    (Longitude.ofFloat v).val = remEuclid (v + PI) TAU - PI := by
  unfold Longitude.ofFloat
  split_ifs with h
  · rw [remEuclid_of_nonneg_of_lt (v + PI) TAU (by linarith [h.1]) (by
      have := h.2
      unfold TAU
      linarith)]
    ring
  · rfl

/-- In-range inputs pass through `Longitude::from(Float)` unchanged. -/
lemma longitude_ofFloat_val_of_mem (v : ℝ) (h : -PI ≤ v ∧ v < PI) :
    (Longitude.ofFloat v).val = v := by
  unfold Longitude.ofFloat
  rw [if_pos h]

/-- In-range inputs pass through `Latitude::from(Float)` unchanged. -/
lemma latitude_ofFloat_val_of_mem (v : ℝ) (h : -FRAC_PI_2 ≤ v ∧ v ≤ FRAC_PI_2) :
    (Latitude.ofFloat v).val = v := by
  unfold Latitude.ofFloat
  rw [if_pos h]

/-- The conversion `Longitude::from(π)` stores `−π`: the wrap sends the excluded upper
boundary to the lower one. -/
lemma longitude_ofFloat_pi_val : (Longitude.ofFloat PI).val = -PI := by
  rw [longitude_ofFloat_val_wrap]
  have h1 : PI + PI = 0 + TAU := by
    unfold TAU PI
    ring
  rw [h1, remEuclid_add_right _ _ Real.two_pi_pos.ne',
    remEuclid_of_nonneg_of_lt 0 TAU le_rfl Real.two_pi_pos]
  ring

/-! ## Claim theorems -/

/-- Claim C1: for every value `v`, `Longitude::from(v)` keeps `v` unchanged
when `v ∈ [−π, +π)`, otherwise returns `((v + π) mod 2π) − π` with Euclidean
modulo, and in every case the stored value lies in `[−π, +π)`. -/
theorem longitude_ofFloat_spec (v : ℝ) :
    ((-PI ≤ v ∧ v < PI) → (Longitude.ofFloat v).as_float = v) ∧
    (¬(-PI ≤ v ∧ v < PI) →
      (Longitude.ofFloat v).as_float = remEuclid (v + PI) TAU - PI) ∧
    (-PI ≤ (Longitude.ofFloat v).as_float ∧
      (Longitude.ofFloat v).as_float < PI) := by
  unfold Longitude.as_float Longitude.ofFloat
  refine ⟨fun h => by rw [if_pos h], fun h => by rw [if_neg h], ?_⟩
  split_ifs with h
  · exact h
  · dsimp only
    have h0 : (0 : ℝ) ≤ remEuclid (v + PI) TAU :=
      remEuclid_nonneg _ _ Real.two_pi_pos
    have h1 : remEuclid (v + PI) TAU < 2 * PI :=
      remEuclid_lt _ _ Real.two_pi_pos
    exact ⟨by linarith, by linarith⟩

/-- Witness for C1 at the concrete in-range input `v = 0`. -/
theorem longitude_ofFloat_spec_witness : (Longitude.ofFloat 0).as_float = 0 :=
  (longitude_ofFloat_spec 0).1 ⟨neg_nonpos.mpr Real.pi_pos.le, Real.pi_pos⟩

/-- Claim C2: for every value `v`, `Latitude::from(v)` keeps `v` unchanged
when `v ∈ [−π/2, +π/2]`, otherwise returns `asin(sin(v))`, and in every case
the stored value lies in `[−π/2, +π/2]`. -/
theorem latitude_ofFloat_spec (v : ℝ) :
    ((-FRAC_PI_2 ≤ v ∧ v ≤ FRAC_PI_2) → (Latitude.ofFloat v).as_float = v) ∧
    (¬(-FRAC_PI_2 ≤ v ∧ v ≤ FRAC_PI_2) →
      (Latitude.ofFloat v).as_float = Real.arcsin (Real.sin v)) ∧
    (-FRAC_PI_2 ≤ (Latitude.ofFloat v).as_float ∧
      (Latitude.ofFloat v).as_float ≤ FRAC_PI_2) := by
  unfold Latitude.as_float Latitude.ofFloat
  refine ⟨fun h => by rw [if_pos h], fun h => by rw [if_neg h], ?_⟩
  split_ifs with h
  · exact h
  · exact ⟨Real.neg_pi_div_two_le_arcsin _, Real.arcsin_le_pi_div_two _⟩

/-- Witness for C2 at the concrete in-range input `v = 0`. -/
theorem latitude_ofFloat_spec_witness : (Latitude.ofFloat 0).as_float = 0 :=
  (latitude_ofFloat_spec 0).1
    ⟨neg_nonpos.mpr (by positivity), by positivity⟩

/-- Claim C9: for every real `k`, `Longitude::from(π + k)` equals
`Longitude::from(−π + k)`: the two boundaries of the range are
consecutive. -/
theorem longitude_wrap_boundary (k : ℝ) :
    Longitude.ofFloat (PI + k) = Longitude.ofFloat (-PI + k) := by
  apply Longitude.ext
  rw [longitude_ofFloat_val_wrap, longitude_ofFloat_val_wrap]
  have h1 : PI + k + PI = (-PI + k + PI) + TAU := by
    unfold TAU PI
    ring
  rw [h1, remEuclid_add_right _ _ Real.two_pi_pos.ne']

/-- Claim C4: for every pair of geographic coordinates, `distance` equals the
spherical law of cosines on the stored longitude and latitude values, and is
independent of the altitude fields. -/
theorem distance_law_of_cosines (a b : Geographic.Coordinates) :
    a.distance b =
      Real.arccos
        (Real.sin a.latitude.as_float * Real.sin b.latitude.as_float +
          Real.cos a.latitude.as_float * Real.cos b.latitude.as_float *
            Real.cos |a.longitude.as_float - b.longitude.as_float|) ∧
    (∀ h h' : Altitude,
      Geographic.Coordinates.distance ⟨a.longitude, a.latitude, h⟩
        ⟨b.longitude, b.latitude, h'⟩ = a.distance b) :=
  ⟨rfl, fun _ _ => rfl⟩

/-- Claim C3: for a strictly positive radius and a geographic coordinate
whose longitude and latitude are already in range, `reverse ∘ forward` of
the equirectangular projection is the identity on the longitude and latitude
fields (altitude excluded). -/
theorem equirectangular_round_trip (R : ℝ) (hR : 0 < R)
    (g : Geographic.Coordinates)
    (hlon : -PI ≤ g.longitude.as_float ∧ g.longitude.as_float < PI)
    (hlat : -FRAC_PI_2 ≤ g.latitude.as_float ∧
      g.latitude.as_float ≤ FRAC_PI_2) :
    (Equirectangular.reverse ⟨⟨R⟩⟩
        (Equirectangular.forward ⟨⟨R⟩⟩ g)).longitude = g.longitude ∧
    (Equirectangular.reverse ⟨⟨R⟩⟩
        (Equirectangular.forward ⟨⟨R⟩⟩ g)).latitude = g.latitude := by
  simp only [Equirectangular.forward, Equirectangular.reverse,
    PositiveFloat.as_float]
  constructor
  · apply Longitude.ext
    rw [mul_div_cancel_left₀ _ hR.ne']
    exact longitude_ofFloat_val_of_mem _ hlon
  · apply Latitude.ext
    rw [mul_div_cancel_left₀ _ hR.ne']
    exact latitude_ofFloat_val_of_mem _ hlat

/-- Witness for C3 at radius 1 and the default geographic coordinate. -/
theorem equirectangular_round_trip_witness :
    (Equirectangular.reverse ⟨⟨1⟩⟩ (Equirectangular.forward ⟨⟨1⟩⟩
        Geographic.Coordinates.default)).longitude
      = Geographic.Coordinates.default.longitude ∧
    (Equirectangular.reverse ⟨⟨1⟩⟩ (Equirectangular.forward ⟨⟨1⟩⟩
        Geographic.Coordinates.default)).latitude
      = Geographic.Coordinates.default.latitude :=
  equirectangular_round_trip 1 one_pos Geographic.Coordinates.default
    ⟨neg_nonpos.mpr Real.pi_pos.le, Real.pi_pos⟩
    ⟨neg_nonpos.mpr (by positivity), by positivity⟩

/-- Claim C8: `Equirectangular::forward` returns
`(radius·longitude, radius·latitude, 0)`, ignoring altitude; with radius 0
it returns the origin for every input. -/
theorem equirectangular_forward_spec (R : ℝ) (g : Geographic.Coordinates) :
    Equirectangular.forward ⟨⟨R⟩⟩ g =
      ⟨R * g.longitude.as_float, R * g.latitude.as_float, 0⟩ ∧
    (R = 0 → Equirectangular.forward ⟨⟨R⟩⟩ g = ⟨0, 0, 0⟩) := by
  constructor
  · rfl
  · intro h
    subst h
    simp only [Equirectangular.forward, PositiveFloat.as_float, zero_mul]
    rfl

/-- Witness for C8 at radius 0 and the default geographic coordinate. -/
theorem equirectangular_forward_spec_witness :
    Equirectangular.forward ⟨⟨0⟩⟩ Geographic.Coordinates.default = ⟨0, 0, 0⟩ :=
  (equirectangular_forward_spec 0 Geographic.Coordinates.default).2 rfl

/-- Claim C5 counterexample: the two points at the common latitude `π/2`
with longitudes 0 and π have distance 0, not π — refuting "returns π for
every pair of points with equal latitude whose longitudes are 0 and π". -/
theorem distance_equal_latitude_counterexample :
    Geographic.Coordinates.distance
        ⟨Longitude.ofFloat 0, Latitude.ofFloat FRAC_PI_2, Altitude.ofFloat 0⟩
        ⟨Longitude.ofFloat PI, Latitude.ofFloat FRAC_PI_2, Altitude.ofFloat 0⟩
      ≠ PI := by
  have hlat : (Latitude.ofFloat FRAC_PI_2).val = FRAC_PI_2 :=
    latitude_ofFloat_val_of_mem _ ⟨neg_le_self (by positivity), le_rfl⟩
  simp only [Geographic.Coordinates.distance, Latitude.as_float, hlat]
  unfold FRAC_PI_2
  rw [Real.sin_pi_div_two, Real.cos_pi_div_two]
  simp only [one_mul, zero_mul, add_zero, Real.arccos_one]
  exact ne_of_lt Real.pi_pos

/-- Claim C5 amended: `distance` of identical points is 0; the distance
between the latitude-0 points with longitudes 0 and π is π; and the distance
between a latitude `+π/2` point and a latitude `−π/2` point is π for all
longitudes and altitudes. -/
theorem distance_special_values :
    (∀ a : Geographic.Coordinates, a.distance a = 0) ∧
    (Geographic.Coordinates.distance
        ⟨Longitude.ofFloat 0, Latitude.ofFloat 0, Altitude.ofFloat 0⟩
        ⟨Longitude.ofFloat PI, Latitude.ofFloat 0, Altitude.ofFloat 0⟩
      = PI) ∧
    (∀ (l1 l2 : Longitude) (h1 h2 : Altitude),
      Geographic.Coordinates.distance ⟨l1, Latitude.ofFloat FRAC_PI_2, h1⟩
          ⟨l2, Latitude.ofFloat (-FRAC_PI_2), h2⟩
        = PI) := by
  refine ⟨?_, ?_, ?_⟩
  · intro a
    simp only [Geographic.Coordinates.distance, sub_self, abs_zero,
      Real.cos_zero, mul_one]
    rw [← pow_two, ← pow_two, Real.sin_sq_add_cos_sq, Real.arccos_one]
  · have hlat : (Latitude.ofFloat 0).val = 0 :=
      latitude_ofFloat_val_of_mem _
        ⟨neg_nonpos.mpr (by positivity), by positivity⟩
    have hlon : (Longitude.ofFloat 0).val = 0 :=
      longitude_ofFloat_val_of_mem _
        ⟨neg_nonpos.mpr Real.pi_pos.le, Real.pi_pos⟩
    simp only [Geographic.Coordinates.distance, Latitude.as_float,
      Longitude.as_float, hlat, hlon, longitude_ofFloat_pi_val,
      Real.sin_zero, Real.cos_zero, sub_neg_eq_add, zero_add, zero_mul,
      one_mul, abs_of_pos Real.pi_pos, Real.cos_pi, mul_neg_one]
    rw [Real.arccos_neg_one]
  · intro l1 l2 h1 h2
    have hpos : (Latitude.ofFloat FRAC_PI_2).val = FRAC_PI_2 :=
      latitude_ofFloat_val_of_mem _ ⟨neg_le_self (by positivity), le_rfl⟩
    have hneg : (Latitude.ofFloat (-FRAC_PI_2)).val = -FRAC_PI_2 :=
      latitude_ofFloat_val_of_mem _ ⟨le_rfl, neg_le_self (by positivity)⟩
    simp only [Geographic.Coordinates.distance, Latitude.as_float,
      hpos, hneg]
    unfold FRAC_PI_2
    rw [Real.sin_neg, Real.sin_pi_div_two, Real.cos_pi_div_two]
    simp only [one_mul, zero_mul, mul_neg_one, add_zero, Real.arccos_neg_one]

/-- Claim C6: `Longitude::from(Cartesian)` returns the planar angle of
`(x, y)` by the exact case analysis of the source, passed through the
`From<Float>` wrap normalization. -/
theorem longitude_ofCartesian_cases (x y z : ℝ) :
    (0 < x → Longitude.ofCartesian ⟨x, y, z⟩ =
      Longitude.ofFloat (Real.arctan (y / x))) ∧
    (x < 0 → 0 ≤ y → Longitude.ofCartesian ⟨x, y, z⟩ =
      Longitude.ofFloat (Real.arctan (y / x) + PI)) ∧
    (x < 0 → y < 0 → Longitude.ofCartesian ⟨x, y, z⟩ =
      Longitude.ofFloat (Real.arctan (y / x) - PI)) ∧
    (x = 0 → 0 < y → Longitude.ofCartesian ⟨x, y, z⟩ =
      Longitude.ofFloat FRAC_PI_2) ∧
    (x = 0 → y < 0 → Longitude.ofCartesian ⟨x, y, z⟩ =
      Longitude.ofFloat (-FRAC_PI_2)) ∧
    (x = 0 → y = 0 → Longitude.ofCartesian ⟨x, y, z⟩ =
      Longitude.ofFloat 0) := by
  unfold Longitude.ofCartesian
  dsimp only
  refine ⟨fun h1 => ?_, fun h1 h2 => ?_, fun h1 h2 => ?_, fun h1 h2 => ?_,
    fun h1 h2 => ?_, fun h1 h2 => ?_⟩
  · rw [if_pos h1]
  · rw [if_neg (not_lt.mpr h1.le), if_pos ⟨h1, h2⟩]
  · rw [if_neg (not_lt.mpr h1.le), if_neg (fun hc => not_le.mpr h2 hc.2),
      if_pos ⟨h1, h2⟩]
  · subst h1
    rw [if_neg (lt_irrefl 0), if_neg (fun hc => lt_irrefl 0 hc.1),
      if_neg (fun hc => lt_irrefl 0 hc.1), if_pos ⟨rfl, h2⟩]
  · subst h1
    rw [if_neg (lt_irrefl 0), if_neg (fun hc => lt_irrefl 0 hc.1),
      if_neg (fun hc => lt_irrefl 0 hc.1),
      if_neg (fun hc => lt_asymm h2 hc.2), if_pos ⟨rfl, h2⟩]
  · subst h1
    subst h2
    rw [if_neg (lt_irrefl 0), if_neg (fun hc => lt_irrefl 0 hc.1),
      if_neg (fun hc => lt_irrefl 0 hc.1),
      if_neg (fun hc => lt_irrefl 0 hc.2),
      if_neg (fun hc => lt_irrefl 0 hc.2), if_pos ⟨rfl, rfl⟩]

/-- Witness for C6 at the concrete point `(1, 0, 0)`. -/
theorem longitude_ofCartesian_cases_witness :
    Longitude.ofCartesian ⟨1, 0, 0⟩ = Longitude.ofFloat (Real.arctan (0 / 1)) :=
  (longitude_ofCartesian_cases 1 0 0).1 one_pos

/-- Claim C7: `Geographic::from(Cartesian)` on the six unit points along the
cardinal axes yields the expected longitude, latitude and altitude, with the
unmentioned components at their defaults; for `(−1,0,0)` the longitude is
`Longitude::from(π)`, i.e. π after wrap normalization. -/
theorem geographic_ofCartesian_cardinal_axes :
    (Geographic.Coordinates.ofCartesian ⟨0, 0, 1⟩ =
      ⟨Longitude.ofFloat 0, Latitude.ofFloat FRAC_PI_2, Altitude.ofFloat 1⟩) ∧
    (Geographic.Coordinates.ofCartesian ⟨0, 0, -1⟩ =
      ⟨Longitude.ofFloat 0, Latitude.ofFloat (-FRAC_PI_2),
        Altitude.ofFloat 1⟩) ∧
    (Geographic.Coordinates.ofCartesian ⟨0, 1, 0⟩ =
      ⟨Longitude.ofFloat FRAC_PI_2, Latitude.ofFloat 0,
        Altitude.ofFloat 1⟩) ∧
    (Geographic.Coordinates.ofCartesian ⟨0, -1, 0⟩ =
      ⟨Longitude.ofFloat (-FRAC_PI_2), Latitude.ofFloat 0,
        Altitude.ofFloat 1⟩) ∧
    (Geographic.Coordinates.ofCartesian ⟨1, 0, 0⟩ =
      ⟨Longitude.ofFloat 0, Latitude.ofFloat 0, Altitude.ofFloat 1⟩) ∧
    (Geographic.Coordinates.ofCartesian ⟨-1, 0, 0⟩ =
      ⟨Longitude.ofFloat PI, Latitude.ofFloat 0, Altitude.ofFloat 1⟩) := by
  unfold Geographic.Coordinates.ofCartesian Longitude.ofCartesian
    Latitude.ofCartesian Altitude.ofCartesian
  refine ⟨?_, ?_, ?_, ?_, ?_, ?_⟩
  · apply Geographic.Coordinates.ext
    · dsimp only
      norm_num
    · dsimp only
      norm_num [Real.sqrt_zero, Real.arctan_zero]
    · dsimp only
      norm_num [Real.sqrt_one]
  · apply Geographic.Coordinates.ext
    · dsimp only
      norm_num
    · dsimp only
      norm_num [Real.sqrt_zero, Real.arctan_zero]
      congr 1
      unfold FRAC_PI_2 PI
      ring
    · dsimp only
      norm_num [Real.sqrt_one]
  · apply Geographic.Coordinates.ext
    · dsimp only
      norm_num
    · dsimp only
      norm_num
    · dsimp only
      norm_num [Real.sqrt_one]
  · apply Geographic.Coordinates.ext
    · dsimp only
      norm_num
    · dsimp only
      norm_num
    · dsimp only
      norm_num [Real.sqrt_one]
  · apply Geographic.Coordinates.ext
    · dsimp only
      norm_num [Real.arctan_zero]
    · dsimp only
      norm_num
    · dsimp only
      norm_num [Real.sqrt_one]
  · apply Geographic.Coordinates.ext
    · dsimp only
      norm_num [Real.arctan_zero]
    · dsimp only
      norm_num
    · dsimp only
      norm_num [Real.sqrt_one]

/-- Claim C10: `distance` is symmetric in its two arguments. -/
theorem distance_symm (a b : Geographic.Coordinates) :
    a.distance b = b.distance a := by
  simp only [Geographic.Coordinates.distance]
  rw [abs_sub_comm]
  ring_nf

end
